import Mathlib

/-! Shallow embedding of the `minya/logger` Go package (src/logger.go, and the
earlier revision in src/unnamed/part_000) together with theorems checking the
specification's claims about it.

The zerolog backend is external to the repository; only the small slice of its
behaviour that the package relies on (handles carrying an ordered field
context, per-call events, message finalisation, the fatal exit hook, the
global level gate) is modelled, following the spec's backend-collaborator
contract.  Stack introspection (`runtime.Caller`) is modelled by passing the
call stack as an explicit list of frames.  Go strings are Lean `String`s;
`interface{}` arguments are modelled by the closed value type `Val`.
-/

set_option maxRecDepth 4000

namespace Logger

/-- A value passed as an `interface{}` argument to a logging call. -/
inductive Val where
  | vstr (s : String)
  | vint (n : Int)
  | vbool (b : Bool)
deriving DecidableEq, Repr

/-- Go `fmt.Sprint` on a single value, as used to turn a key argument into a
field name in `processArgs`. -/
def Val.sprint : Val → String
  | .vstr s => s
  | .vint n => toString n
  | .vbool b => if b then "true" else "false"

/-- A Go `error` value; `msg` is what its `Error()` method returns, which is
also what `fmt.Sprintf("%v", err)` renders. -/
structure GoError where
  msg : String
deriving DecidableEq, Repr

/-- zerolog levels, in zerolog's severity order
(trace < debug < info < warn < error < fatal < panic < disabled). -/
inductive ZLevel where
  | trace
  | debug
  | info
  | warn
  | error
  | fatal
  | panic
  | disabled
deriving DecidableEq, Repr

/-- Numeric severity rank mirroring zerolog's level ordering. -/
def ZLevel.rank : ZLevel → Nat
  | .trace => 0
  | .debug => 1
  | .info => 2
  | .warn => 3
  | .error => 4
  | .fatal => 5
  | .panic => 6
  | .disabled => 8

/-- An `io.Writer`; `stderr` is `os.Stderr`, `other n` any further writer. -/
inductive Writer where
  | stderr
  | stdout
  | other (id : Nat)
deriving DecidableEq, Repr

/-- The `Config` structure from src/logger.go lines 32-38.  `Output` is `none` for a nil
`io.Writer`. -/
structure Config where
  Level : String
  Pretty : Bool
  WithCaller : Bool
  TimeFormat : String
  Output : Option Writer
deriving DecidableEq, Repr

/-- The sink a zerolog logger writes to: either the raw writer
(`zerolog.New(w)`) or a `zerolog.ConsoleWriter` wrapping it (pretty mode). -/
inductive Sink where
  | raw (w : Option Writer)
  | console (out : Option Writer) (timeFormat : String)
deriving DecidableEq, Repr

/-- A zerolog logger handle: a sink, a timestamp hook flag, and the ordered
list of context fields baked into the handle. -/
structure ZLogger where
  sink : Sink
  hasTimestamp : Bool
  context : List (String × Val)
deriving DecidableEq, Repr

/-- Constructor `zerolog.New(w)`: fresh handle on a sink, no hook, empty context. -/
def ZLogger.new (s : Sink) : ZLogger :=
  { sink := s, hasTimestamp := false, context := [] }

/-- Chaining `.With().Timestamp().Logger()`: same handle with the timestamp hook set. -/
def ZLogger.withTimestamp (l : ZLogger) : ZLogger :=
  { l with hasTimestamp := true }

/-- A zerolog `Context` builds a derived handle; modelled as the handle being
built (`With()` copies the logger, `Logger()` returns it). -/
abbrev Context := ZLogger

/-- Method `logger.With()`. -/
def ZLogger.With (l : ZLogger) : Context := l

/-- Method `Context.Str(k, v)`: append a string field to the pending context. -/
def Context.strField (c : Context) (k v : String) : Context :=
  { c with context := c.context ++ [(k, Val.vstr v)] }

/-- Method `Context.Interface(k, v)`: append an arbitrarily-typed field. -/
def Context.interfaceField (c : Context) (k : String) (v : Val) : Context :=
  { c with context := c.context ++ [(k, v)] }

/-- Method `Context.Logger()`. -/
def Context.Logger (c : Context) : ZLogger := c

/-- A per-call log event: its level and the ordered fields attached so far
(starting from the handle's context fields). -/
structure Event where
  level : ZLevel
  fields : List (String × Val)
deriving DecidableEq, Repr

/-- Opening an event at a level on a handle (`l.Debug()`, `l.Info()`, ...):
the event starts with the handle's context fields. -/
def ZLogger.newEvent (l : ZLogger) (lvl : ZLevel) : Event :=
  { level := lvl, fields := l.context }

/-- Method `Event.Str(k, v)`. -/
def Event.strField (e : Event) (k v : String) : Event :=
  { e with fields := e.fields ++ [(k, Val.vstr v)] }

/-- Method `Event.Interface(k, v)`. -/
def Event.interfaceField (e : Event) (k : String) (v : Val) : Event :=
  { e with fields := e.fields ++ [(k, v)] }

/-- Method `Event.Err(err)`: attaches an `error` field when `err` is non-nil,
nothing when it is nil. -/
def Event.errField (e : Event) : Option GoError → Event
  | none => e
  | some ge => e.strField "error" ge.msg

/-- A finalised event: either `evt.Msg(message)` (message emitted verbatim)
or `evt.Msgf(template, argvals)` (printf-style formatting). -/
inductive Emitted where
  | plain (evt : Event) (message : String)
  | formatted (evt : Event) (template : String) (argvals : List Val)
deriving DecidableEq, Repr

/-- Go `strings.Contains(msg, "%")`: since the pattern is the single character
`'%'`, this is containment of that character. -/
def containsFormatMarker (msg : String) : Bool :=
  msg.data.any (fun c => c = '%')

/-- The key/value loop of `processArgs` (src/logger.go lines 140-144):
`for i := 0; i < len(args); i += 2 { if i+1 < len(args) { evt =
evt.Interface(fmt.Sprint(args[i]), args[i+1]) } }`. -/
def attachEvt (evt : Event) (args : List Val) (i : Nat) : Event :=
  if i < args.length then
    attachEvt
      (if i + 1 < args.length then
        evt.interfaceField (Val.sprint (args.getD i (.vstr ""))) (args.getD (i + 1) (.vstr ""))
      else evt)
      args (i + 2)
  else evt
termination_by args.length - i
decreasing_by omega

/-- Function `processArgs` from src/logger.go lines 136-149, returning the finalised
event instead of writing it to the sink. -/
def processArgs (evt : Event) (msg : String) (args : List Val) : Emitted :=
  if args.length > 0 && containsFormatMarker msg then
    .formatted evt msg args
  else if args.length > 0 then
    .plain (attachEvt evt args 0) msg
  else
    .plain evt msg

/-- Structural form of the alternating key/value decoding: consecutive
disjoint pairs, an unpaired trailing element yielding nothing. -/
def pairFields : List Val → List (String × Val)
  | k :: v :: rest => (Val.sprint k, v) :: pairFields rest
  | _ => []

theorem pairFields_of_length_le_one {l : List Val} (h : l.length ≤ 1) :
    pairFields l = [] := by
  match l with
  | [] => rfl
  | [_] => rfl
  | _ :: _ :: _ => simp at h

theorem pairFields_cons_cons (k v : Val) (rest : List Val) :
    pairFields (k :: v :: rest) = (Val.sprint k, v) :: pairFields rest := rfl

/-- The indexed key/value loop computes exactly the disjoint consecutive
pairs of the not-yet-visited suffix, appended to the fields already on the
event. -/
theorem attachEvt_eq_pairFields (args : List Val) (i : Nat) (evt : Event) :
    attachEvt evt args i =
      { evt with fields := evt.fields ++ pairFields (args.drop i) } := by
  rw [attachEvt]
  by_cases h : i < args.length
  · simp only [if_pos h]
    by_cases h2 : i + 1 < args.length
    · simp only [if_pos h2]
      rw [attachEvt_eq_pairFields args (i + 2)]
      have hd : args.drop i = args[i] :: args[i + 1] :: args.drop (i + 2) := by
        rw [List.drop_eq_getElem_cons h, List.drop_eq_getElem_cons h2]
      rw [hd, pairFields_cons_cons, List.getD_eq_getElem args _ h,
        List.getD_eq_getElem args _ h2]
      simp only [Event.interfaceField, Event.mk.injEq]
      exact ⟨trivial, by rw [List.append_assoc, List.singleton_append]⟩
    · simp only [if_neg h2]
      rw [attachEvt_eq_pairFields args (i + 2)]
      have hlen2 : args.length ≤ i + 2 := by omega
      have hlen' : (args.drop i).length ≤ 1 := by
        simp [List.length_drop]; omega
      rw [List.drop_eq_nil_of_le hlen2, pairFields_of_length_le_one hlen']
      rfl
  · simp only [if_neg h]
    rw [List.drop_eq_nil_of_le (Nat.le_of_not_lt h)]
    show evt = { evt with fields := evt.fields ++ [] }
    rw [List.append_nil]
termination_by args.length - i
decreasing_by all_goals omega

/-! Level resolution and global state. -/

/-- Go `unicode.ToLower` on one rune (the Unicode simple case mapping),
modelled exactly on every code point whose Go lowercase is ASCII: the ASCII
letters `A`-`Z`, U+0130 (latin capital letter I with dot above, whose simple
lowercase mapping is the plain ASCII `i`), and U+212A (the kelvin sign,
mapped to `k`).  Every other code point is left unchanged; for the remaining
non-ASCII characters Go's lowercase is again non-ASCII, so this cannot
change the outcome of a lookup keyed by ASCII-only strings such as the
level enumeration's. -/
def goCharToLower (c : Char) : Char :=
  if c = Char.ofNat 0x130 then 'i'
  else if c = Char.ofNat 0x212A then 'k'
  else c.toLower

/-- Go `strings.ToLower`: the Unicode simple case mapping applied rune by
rune (`goCharToLower` on each character). -/
def goToLower (s : String) : String :=
  ⟨s.data.map goCharToLower⟩

/-- The `Levels` map, src/logger.go lines 41-49, as an association list. -/
def Levels : List (String × ZLevel) :=
  [("debug", .debug), ("info", .info), ("warn", .warn), ("error", .error),
   ("fatal", .fatal), ("panic", .panic), ("disabled", .disabled)]

/-- The level-resolution step of `InitLogger` (src/logger.go lines 70-73):
`level := zerolog.InfoLevel; if lvl, ok := Levels[strings.ToLower(cfg.Level)];
ok { level = lvl }`. -/
def resolveLevel (lvl : String) : ZLevel :=
  match (Levels.lookup (goToLower lvl)) with
  | some l => l
  | none => .info

/-- The package's global mutable state: the one-shot gate, zerolog's global
time-field format and level, the two global logger handles, and the stored
`defaultConfig` variable. -/
structure GState where
  initDone : Bool
  timeFieldFormat : String
  globalLevel : ZLevel
  defaultLogger : ZLogger
  logLogger : ZLogger
  defaultConfig : Config
deriving DecidableEq, Repr

/-- The `time.RFC3339` layout string. -/
def rfc3339 : String := "2006-01-02T15:04:05Z07:00"

/-- The `defaultConfig` package variable at process start
(src/logger.go lines 22-28). -/
def startDefaultConfig : Config :=
  { Level := "info", Pretty := false, WithCaller := false,
    TimeFormat := rfc3339, Output := some .stderr }

/-- Process-start state, after the package's `init` function
(src/logger.go lines 196-202): bootstrap logger on stderr with timestamps,
one-shot gate not yet fired, zerolog globals at their defaults. -/
def initialState : GState :=
  { initDone := false
    timeFieldFormat := rfc3339
    globalLevel := .trace
    defaultLogger := (ZLogger.new (.raw (some .stderr))).withTimestamp
    logLogger := (ZLogger.new (.raw (some .stderr))).withTimestamp
    defaultConfig := startDefaultConfig }

/-- The defaults-filling step of `InitLogger` (src/logger.go lines 59-64):
nil output and empty time format are replaced from the stored default
configuration; the other fields are untouched. -/
def fillDefaults (dc : Config) (cfg : Config) : Config :=
  let c1 := if cfg.Output = none then { cfg with Output := dc.Output } else cfg
  if c1.TimeFormat = "" then { c1 with TimeFormat := dc.TimeFormat } else c1

/-- The handle-construction step of `InitLogger` (src/logger.go lines 77-88):
console writer in pretty mode, raw writer otherwise, then a timestamp hook. -/
def buildLogger (cfg : Config) : ZLogger :=
  let logger :=
    if cfg.Pretty then ZLogger.new (.console cfg.Output cfg.TimeFormat)
    else ZLogger.new (.raw cfg.Output)
  logger.withTimestamp

/-- Function `InitLogger` (src/logger.go lines 56-99) as a state transformer.  The
`sync.Once` gate is the `initDone` flag: once it is set the body never runs
again. -/
def InitLogger (cfg : Config) (s : GState) : GState :=
  if s.initDone then s
  else
    let c := fillDefaults s.defaultConfig cfg
    let logger := buildLogger c
    { s with
      initDone := true
      timeFieldFormat := c.TimeFormat
      globalLevel := resolveLevel c.Level
      defaultConfig := { s.defaultConfig with WithCaller := cfg.WithCaller }
      defaultLogger := logger
      logLogger := logger }

/-- A sequence of `InitLogger` calls, in order. -/
def runInits : List Config → GState → GState
  | [], s => s
  | c :: cs, s => runInits cs (InitLogger c s)

/-! Caller annotation. -/

/-- A stack frame as `runtime.Caller` reports it: source file and line. -/
structure Frame where
  file : String
  line : Nat
deriving DecidableEq, Repr

/-- Go `runtime.Caller(skip)`: the frame `skip` levels up the given call stack,
`none` when the stack cannot be resolved that far. -/
def runtimeCaller (skip : Nat) (stack : List Frame) : Option Frame :=
  stack.get? skip

/-- Function `addCallerInfo` (src/logger.go lines 112-121): when `WithCaller` is set
in the stored default configuration, attach the frame found by
`runtime.Caller(2)` as a `caller` field formatted `"<file>:<line>"`;
otherwise, or when resolution fails, return the event unchanged. -/
def addCallerInfo (cfg : Config) (stack : List Frame) (evt : Event) : Event :=
  if cfg.WithCaller then
    match runtimeCaller 2 stack with
    | some fr => evt.strField "caller" (fr.file ++ ":" ++ toString fr.line)
    | none => evt
  else evt

/-- Function `addCallerToContext` (src/logger.go lines 124-133): same policy on a
context instead of an event. -/
def addCallerToContext (cfg : Config) (stack : List Frame) (ctx : Context) :
    Context :=
  if cfg.WithCaller then
    match runtimeCaller 2 stack with
    | some fr => ctx.strField "caller" (fr.file ++ ":" ++ toString fr.line)
    | none => ctx
  else ctx

/-- Function `GetLogger` (src/logger.go lines 103-108), with the global state threaded
explicitly: the body only reads `DefaultLogger` and `defaultConfig`, so the
returned state is the input state. -/
def GetLogger (s : GState) (stack : List Frame) (component : String) :
    ZLogger × GState :=
  let context := s.defaultLogger.With
  let context := (addCallerToContext s.defaultConfig stack context).strField
    "component" component
  (context.Logger, s)

/-! Level functions. -/

/-- Function `Debug` (src/logger.go lines 152-155), returning the finalised event. -/
def Debug (s : GState) (stack : List Frame) (msg : String) (args : List Val) :
    Emitted :=
  let evt := addCallerInfo s.defaultConfig stack (s.defaultLogger.newEvent .debug)
  processArgs evt msg args

/-- Function `Info` (src/logger.go lines 158-161). -/
def Info (s : GState) (stack : List Frame) (msg : String) (args : List Val) :
    Emitted :=
  let evt := addCallerInfo s.defaultConfig stack (s.defaultLogger.newEvent .info)
  processArgs evt msg args

/-- Function `Error` (src/logger.go lines 170-173). -/
def Error (s : GState) (stack : List Frame) (err : Option GoError)
    (msg : String) (args : List Val) : Emitted :=
  let evt := addCallerInfo s.defaultConfig stack
    ((s.defaultLogger.newEvent .error).errField err)
  processArgs evt msg args

/-- Modelled from the spec: the backend's global minimum-level gate
("a global minimum-level gate that suppresses events below it") — an event
is written only when the global level is not `disabled` and the event's
level reaches it.  The gate lives in the zerolog backend, not under src/. -/
def levelEnabled (globalLevel lvl : ZLevel) : Bool :=
  globalLevel ≠ .disabled && ZLevel.rank globalLevel ≤ ZLevel.rank lvl

/-- What a `Fatal` call leaves behind: the process has exited with the given
status, having first written the given output (if the gate let it through). -/
inductive Outcome where
  | normal (out : Option Emitted)
  | exit (status : Nat) (out : Option Emitted)
deriving DecidableEq, Repr

/-- The outcome is a process exit with a non-zero status. -/
def Outcome.terminatesNonzero : Outcome → Prop
  | .exit status _ => status ≠ 0
  | .normal _ => False

/-- Modelled from the spec: the zerolog backend's finalisation hook for a
fatal-level event, which is not under src/ — "after emission terminates the
process with a non-zero status"; the process exits with status 1 once the
event is finalised, whether or not the level gate let the event be
written. -/
def fatalDone (out : Option Emitted) : Outcome :=
  .exit 1 out

/-- Function `Fatal` (src/logger.go lines 176-179): opens a fatal event with
the error attached, runs the caller annotator and the argument interpreter,
and ends in the backend's `fatalDone` exit hook (with the written event if
the gate let it through, with nothing otherwise). -/
def Fatal (s : GState) (stack : List Frame) (err : Option GoError)
    (msg : String) (args : List Val) : Outcome :=
  if levelEnabled s.globalLevel .fatal then
    let evt := addCallerInfo s.defaultConfig stack
      ((s.defaultLogger.newEvent .fatal).errField err)
    fatalDone (some (processArgs evt msg args))
  else
    fatalDone none

/-- Function `FormatError` (src/logger.go lines 189-194): empty string for nil, the
`fmt.Sprintf("%v", err)` rendering — the error's `Error()` string — else. -/
def FormatError : Option GoError → String
  | none => ""
  | some e => e.msg

/-! The older revision (src/unnamed/part_000). -/

/-- The key/value loop inlined in the old revision's level functions
(src/unnamed/part_000, e.g. lines 114-118), identical index stepping. -/
def oldAttachEvt (evt : Event) (args : List Val) (i : Nat) : Event :=
  if i < args.length then
    oldAttachEvt
      (if i + 1 < args.length then
        evt.interfaceField (Val.sprint (args.getD i (.vstr ""))) (args.getD (i + 1) (.vstr ""))
      else evt)
      args (i + 2)
  else evt
termination_by args.length - i
decreasing_by omega

theorem oldAttachEvt_eq_pairFields (args : List Val) (i : Nat) (evt : Event) :
    oldAttachEvt evt args i =
      { evt with fields := evt.fields ++ pairFields (args.drop i) } := by
  rw [oldAttachEvt]
  by_cases h : i < args.length
  · simp only [if_pos h]
    by_cases h2 : i + 1 < args.length
    · simp only [if_pos h2]
      rw [oldAttachEvt_eq_pairFields args (i + 2)]
      have hd : args.drop i = args[i] :: args[i + 1] :: args.drop (i + 2) := by
        rw [List.drop_eq_getElem_cons h, List.drop_eq_getElem_cons h2]
      rw [hd, pairFields_cons_cons, List.getD_eq_getElem args _ h,
        List.getD_eq_getElem args _ h2]
      simp only [Event.interfaceField, Event.mk.injEq]
      exact ⟨trivial, by rw [List.append_assoc, List.singleton_append]⟩
    · simp only [if_neg h2]
      rw [oldAttachEvt_eq_pairFields args (i + 2)]
      have hlen2 : args.length ≤ i + 2 := by omega
      have hlen' : (args.drop i).length ≤ 1 := by
        simp [List.length_drop]; omega
      rw [List.drop_eq_nil_of_le hlen2, pairFields_of_length_le_one hlen']
      rfl
  · simp only [if_neg h]
    rw [List.drop_eq_nil_of_le (Nat.le_of_not_lt h)]
    show evt = { evt with fields := evt.fields ++ [] }
    rw [List.append_nil]
termination_by args.length - i
decreasing_by all_goals omega

/-- The old revision's `Debug` (src/unnamed/part_000 lines 109-123): the
three-way branch inlined, acting on fresh debug events of the handle. -/
def oldDebug (l : ZLogger) (msg : String) (args : List Val) : Emitted :=
  if args.length > 0 && containsFormatMarker msg then
    .formatted (l.newEvent .debug) msg args
  else if args.length > 0 then
    .plain (oldAttachEvt (l.newEvent .debug) args 0) msg
  else
    .plain (l.newEvent .debug) msg

/-- The old revision's `Error` (src/unnamed/part_000 lines 160-174): event
opened once with the error attached, then the same inlined branch. -/
def oldError (l : ZLogger) (err : Option GoError) (msg : String)
    (args : List Val) : Emitted :=
  let event := (l.newEvent .error).errField err
  if args.length > 0 && containsFormatMarker msg then
    .formatted event msg args
  else if args.length > 0 then
    .plain (oldAttachEvt event args 0) msg
  else
    .plain event msg

/-! Claim theorems. -/

theorem oldAttachEvt_eq_attachEvt (evt : Event) (args : List Val) (i : Nat) :
    oldAttachEvt evt args i = attachEvt evt args i := by
  rw [oldAttachEvt_eq_pairFields, attachEvt_eq_pairFields]

/-- C1: the argument interpreter follows the three-way decision rule in
order: with non-empty args and a `%` in the message, args are positional
printf substitution values and the message is rendered with formatting;
with non-empty args and no `%`, args are decoded as alternating key/value
pairs attached as fields in argument order and the message is emitted
verbatim; with empty args the message is emitted verbatim with no fields
attached. -/
theorem processArgs_three_way (evt : Event) (msg : String) (args : List Val) :
    (args ≠ [] → containsFormatMarker msg = true →
      processArgs evt msg args = .formatted evt msg args) ∧
    (args ≠ [] → containsFormatMarker msg = false →
      processArgs evt msg args =
        .plain { evt with fields := evt.fields ++ pairFields args } msg) ∧
    (args = [] → processArgs evt msg args = .plain evt msg) := by
  refine ⟨?_, ?_, ?_⟩
  · intro hne hm
    have hl : args.length > 0 := List.length_pos.mpr hne
    simp [processArgs, hl, hm]
  · intro hne hm
    have hl : args.length > 0 := List.length_pos.mpr hne
    simp [processArgs, hl, hm, attachEvt_eq_pairFields]
  · intro h
    subst h
    simp [processArgs]

/-- Witness for C1 on the spec's own examples. -/
theorem processArgs_three_way_witness :
    processArgs ⟨.info, []⟩ "got %d items" [.vint 5] =
      .formatted ⟨.info, []⟩ "got %d items" [.vint 5] ∧
    processArgs ⟨.info, []⟩ "user event"
        [.vstr "user", .vstr "alice", .vstr "action", .vstr "login"] =
      .plain ⟨.info, [("user", .vstr "alice"), ("action", .vstr "login")]⟩
        "user event" ∧
    processArgs ⟨.info, []⟩ "plain" [] = .plain ⟨.info, []⟩ "plain" := by
  refine ⟨?_, ?_, ?_⟩
  · exact (processArgs_three_way _ _ _).1 (by decide) (by decide)
  · have h := (processArgs_three_way ⟨.info, []⟩ "user event"
      [.vstr "user", .vstr "alice", .vstr "action", .vstr "login"]).2.1
      (by decide) (by decide)
    rw [h]
    rfl
  · exact (processArgs_three_way _ _ _).2.2 rfl

theorem pairFields_eq_range_map (k : Nat) :
    ∀ args : List Val, args.length = 2 * k + 1 →
      pairFields args = (List.range k).map (fun j =>
        (Val.sprint (args.getD (2 * j) (.vstr "")),
         args.getD (2 * j + 1) (.vstr ""))) := by
  induction k with
  | zero =>
    intro args h
    rw [pairFields_of_length_le_one (by omega)]
    rfl
  | succ k ih =>
    intro args h
    match args with
    | a :: b :: rest =>
      have hr : rest.length = 2 * k + 1 := by
        simp only [List.length_cons] at h
        omega
      rw [pairFields_cons_cons, ih rest hr, List.range_succ_eq_map,
        List.map_cons, List.map_map, List.cons_eq_cons]
      refine ⟨by simp, List.map_congr_left ?_⟩
      intro j hj
      have h2 : 2 * (j + 1) = 2 * j + 1 + 1 := by ring
      have h3 : 2 * (j + 1) + 1 = 2 * j + 1 + 1 + 1 := by ring
      simp [Function.comp, h2, h3, List.getD_cons_succ]

/-- C3: in key/value mode an odd-length argument list of length `2*k+1`
yields exactly the `k` pairs `(args[2*j], args[2*j+1])` for `j < k` as
fields; the trailing unpaired element is silently dropped and no error is
raised. -/
theorem processArgs_odd_drops_last (evt : Event) (msg : String)
    (args : List Val) (k : Nat)
    (hm : containsFormatMarker msg = false) (h : args.length = 2 * k + 1) :
    processArgs evt msg args =
      .plain { evt with fields := evt.fields ++ (List.range k).map (fun j =>
        (Val.sprint (args.getD (2 * j) (.vstr "")),
         args.getD (2 * j + 1) (.vstr ""))) } msg ∧
    (pairFields args).length = k := by
  have hl : args.length > 0 := by omega
  have hpf := pairFields_eq_range_map k args h
  constructor
  · simp [processArgs, hl, hm, attachEvt_eq_pairFields, hpf]
  · rw [hpf]
    simp

/-- Witness for C3 on the spec's odd-length example. -/
theorem processArgs_odd_witness :
    processArgs ⟨.info, []⟩ "odd case"
        [.vstr "key1", .vstr "val1", .vstr "key2"] =
      .plain ⟨.info, [("key1", .vstr "val1")]⟩ "odd case" := by
  have h := processArgs_odd_drops_last ⟨.info, []⟩ "odd case"
    [.vstr "key1", .vstr "val1", .vstr "key2"] 1 (by decide) (by decide)
  rw [h.1]
  rfl

/-- C9: the older revision's inlined three-way branching (its `Debug` and
`Error`) is extensionally equal to the refactored revision's shared
`processArgs` applied to the corresponding event. -/
theorem oldInlined_eq_processArgs (l : ZLogger) (err : Option GoError)
    (msg : String) (args : List Val) :
    oldDebug l msg args = processArgs (l.newEvent .debug) msg args ∧
    oldError l err msg args =
      processArgs ((l.newEvent .error).errField err) msg args := by
  constructor
  · simp only [oldDebug, processArgs, oldAttachEvt_eq_attachEvt]
  · simp only [oldError, processArgs, oldAttachEvt_eq_attachEvt]

theorem InitLogger_initDone (cfg : Config) (s : GState) :
    (InitLogger cfg s).initDone = true := by
  by_cases h : s.initDone = true <;> simp [InitLogger, h]

theorem InitLogger_noop_of_initDone {cfg : Config} {s : GState}
    (h : s.initDone = true) : InitLogger cfg s = s := by
  simp [InitLogger, h]

theorem runInits_noop {cfgs : List Config} {s : GState}
    (h : s.initDone = true) : runInits cfgs s = s := by
  induction cfgs with
  | nil => rfl
  | cons c cs ih =>
    show runInits cs (InitLogger c s) = s
    rw [InitLogger_noop_of_initDone h]
    exact ih

theorem InitLogger_frame (cfg : Config) (s : GState) :
    (InitLogger cfg s).defaultConfig.Level = s.defaultConfig.Level ∧
    (InitLogger cfg s).defaultConfig.Pretty = s.defaultConfig.Pretty ∧
    (InitLogger cfg s).defaultConfig.TimeFormat = s.defaultConfig.TimeFormat ∧
    (InitLogger cfg s).defaultConfig.Output = s.defaultConfig.Output := by
  by_cases h : s.initDone = true <;> simp [InitLogger, h]

theorem InitLogger_withCaller (cfg : Config) (s : GState)
    (h : s.initDone = false) :
    (InitLogger cfg s).defaultConfig.WithCaller = cfg.WithCaller := by
  simp [InitLogger, h]

/-- C2: the initializer is idempotent with first-call-wins semantics: from
an uninitialized state, after `InitLogger A` a second call `InitLogger B` is
a no-op, and A's settings — resolved level, the handle built from A (pretty
mode and output), the recorded caller flag, the time-field format — are in
effect. -/
theorem initLogger_first_call_wins (A B : Config) (s : GState)
    (h : s.initDone = false) :
    InitLogger B (InitLogger A s) = InitLogger A s ∧
    (InitLogger A s).globalLevel =
      resolveLevel (fillDefaults s.defaultConfig A).Level ∧
    (InitLogger A s).defaultLogger = buildLogger (fillDefaults s.defaultConfig A) ∧
    (InitLogger A s).logLogger = buildLogger (fillDefaults s.defaultConfig A) ∧
    (InitLogger A s).defaultConfig.WithCaller = A.WithCaller ∧
    (InitLogger A s).timeFieldFormat = (fillDefaults s.defaultConfig A).TimeFormat := by
  refine ⟨InitLogger_noop_of_initDone (InitLogger_initDone A s), ?_, ?_, ?_,
    InitLogger_withCaller A s h, ?_⟩ <;> simp [InitLogger, h]

/-- Two distinct concrete configurations used to witness the initializer
claims. -/
def cfgDebugPretty : Config :=
  { Level := "DEBUG", Pretty := true, WithCaller := true,
    TimeFormat := "", Output := none }

def cfgWarnRaw : Config :=
  { Level := "warn", Pretty := false, WithCaller := false,
    TimeFormat := "15:04", Output := some .stdout }

/-- Witness for C2: the first configuration's level and caller flag are in
effect and the second call changes nothing. -/
theorem initLogger_first_call_wins_witness :
    InitLogger cfgWarnRaw (InitLogger cfgDebugPretty initialState) =
      InitLogger cfgDebugPretty initialState ∧
    (InitLogger cfgDebugPretty initialState).globalLevel = ZLevel.debug ∧
    (InitLogger cfgDebugPretty initialState).defaultConfig.WithCaller = true := by
  have h := initLogger_first_call_wins cfgDebugPretty cfgWarnRaw initialState rfl
  refine ⟨h.1, ?_, ?_⟩
  · rw [h.2.1]
    decide
  · rw [h.2.2.2.2.1]
    rfl

/-- C10: the initializer mutates only the `WithCaller` field of the stored
default configuration: after any sequence of `InitLogger` calls from
process start, `Level`, `Pretty`, `TimeFormat` and `Output` of the stored
default configuration keep their process-start values, and the recorded
caller flag equals the `WithCaller` of the winning (first) configuration. -/
theorem runInits_defaultConfig_frame (cfgs : List Config) (c : Config)
    (rest : List Config) (h : cfgs = c :: rest) :
    (runInits cfgs initialState).defaultConfig.Level =
      initialState.defaultConfig.Level ∧
    (runInits cfgs initialState).defaultConfig.Pretty =
      initialState.defaultConfig.Pretty ∧
    (runInits cfgs initialState).defaultConfig.TimeFormat =
      initialState.defaultConfig.TimeFormat ∧
    (runInits cfgs initialState).defaultConfig.Output =
      initialState.defaultConfig.Output ∧
    (runInits cfgs initialState).defaultConfig.WithCaller = c.WithCaller := by
  subst h
  have hrun : runInits (c :: rest) initialState = InitLogger c initialState := by
    show runInits rest (InitLogger c initialState) = _
    exact runInits_noop (InitLogger_initDone c initialState)
  rw [hrun]
  have hf := InitLogger_frame c initialState
  exact ⟨hf.1, hf.2.1, hf.2.2.1, hf.2.2.2, InitLogger_withCaller c initialState rfl⟩

/-- Witness for C10 on a two-call sequence. -/
theorem runInits_defaultConfig_frame_witness :
    (runInits [cfgDebugPretty, cfgWarnRaw] initialState).defaultConfig.Level =
      "info" ∧
    (runInits [cfgDebugPretty, cfgWarnRaw] initialState).defaultConfig.WithCaller =
      true := by
  have h := runInits_defaultConfig_frame [cfgDebugPretty, cfgWarnRaw]
    cfgDebugPretty [cfgWarnRaw] rfl
  exact ⟨by rw [h.1]; rfl, by rw [h.2.2.2.2]; rfl⟩

/-- C4: the initializer resolves the minimum emitted level by a
case-insensitive lookup in the level enumeration, and every string whose
lowercasing is outside the enumeration (including the empty string)
silently resolves to `info` rather than producing an error. -/
theorem resolveLevel_enumeration (s : String) :
    (goToLower s = "debug" → resolveLevel s = .debug) ∧
    (goToLower s = "info" → resolveLevel s = .info) ∧
    (goToLower s = "warn" → resolveLevel s = .warn) ∧
    (goToLower s = "error" → resolveLevel s = .error) ∧
    (goToLower s = "fatal" → resolveLevel s = .fatal) ∧
    (goToLower s = "panic" → resolveLevel s = .panic) ∧
    (goToLower s = "disabled" → resolveLevel s = .disabled) ∧
    (goToLower s ∉
        ["debug", "info", "warn", "error", "fatal", "panic", "disabled"] →
      resolveLevel s = .info) := by
  refine ⟨?_, ?_, ?_, ?_, ?_, ?_, ?_, ?_⟩ <;> intro h
  case _ | _ | _ | _ | _ | _ | _ =>
    unfold resolveLevel
    rw [h]
    decide
  · simp only [List.mem_cons, not_or, List.not_mem_nil] at h
    obtain ⟨h1, h2, h3, h4, h5, h6, h7, -⟩ := h
    have b1 : (goToLower s == "debug") = false := beq_eq_false_iff_ne.mpr h1
    have b2 : (goToLower s == "info") = false := beq_eq_false_iff_ne.mpr h2
    have b3 : (goToLower s == "warn") = false := beq_eq_false_iff_ne.mpr h3
    have b4 : (goToLower s == "error") = false := beq_eq_false_iff_ne.mpr h4
    have b5 : (goToLower s == "fatal") = false := beq_eq_false_iff_ne.mpr h5
    have b6 : (goToLower s == "panic") = false := beq_eq_false_iff_ne.mpr h6
    have b7 : (goToLower s == "disabled") = false := beq_eq_false_iff_ne.mpr h7
    simp [resolveLevel, Levels, List.lookup, b1, b2, b3, b4, b5, b6, b7]

/-- Witness for C4: an ASCII case-insensitive hit, a non-ASCII hit through
the Unicode simple case mapping (U+0130 lowercases to `i`), the empty
string, and an unrecognized string. -/
theorem resolveLevel_enumeration_witness :
    resolveLevel "WARN" = .warn ∧ resolveLevel "DİSABLED" = .disabled ∧
    resolveLevel "" = .info ∧ resolveLevel "verbose" = .info := by
  refine ⟨?_, ?_, ?_, ?_⟩
  · exact (resolveLevel_enumeration "WARN").2.2.1 (by decide)
  · exact (resolveLevel_enumeration "DİSABLED").2.2.2.2.2.2.1 (by decide)
  · exact (resolveLevel_enumeration "").2.2.2.2.2.2.2 (by decide)
  · exact (resolveLevel_enumeration "verbose").2.2.2.2.2.2.2 (by decide)

/-- C5: for every state (hence every configured minimum level), error
value, message and argument list, `Fatal` ends in a process exit with a
non-zero status and never falls through to a normal return. -/
theorem Fatal_terminates_nonzero (s : GState) (stack : List Frame)
    (err : Option GoError) (msg : String) (args : List Val) :
    (Fatal s stack err msg args).terminatesNonzero := by
  unfold Fatal
  by_cases h : levelEnabled s.globalLevel .fatal = true <;>
    simp [h, fatalDone, Outcome.terminatesNonzero]

/-- C6: `GetLogger` returns a handle derived from the current global active
handle with the added field `component = c`, every event opened on the
returned handle carries that field, and the global state (in particular the
active handle) is returned unchanged. -/
theorem GetLogger_adds_component (s : GState) (stack : List Frame)
    (c : String) :
    ("component", Val.vstr c) ∈ (GetLogger s stack c).1.context ∧
    (∀ lvl : ZLevel,
      ("component", Val.vstr c) ∈ ((GetLogger s stack c).1.newEvent lvl).fields) ∧
    (GetLogger s stack c).1.context =
      (addCallerToContext s.defaultConfig stack s.defaultLogger.With).context ++
        [("component", Val.vstr c)] ∧
    (GetLogger s stack c).2 = s := by
  have hctx : (GetLogger s stack c).1.context =
      (addCallerToContext s.defaultConfig stack s.defaultLogger.With).context ++
        [("component", Val.vstr c)] := rfl
  refine ⟨?_, ?_, hctx, rfl⟩
  · rw [hctx]
    exact List.mem_append_right _ (List.mem_singleton_self _)
  · intro lvl
    show ("component", Val.vstr c) ∈ (GetLogger s stack c).1.context
    rw [hctx]
    exact List.mem_append_right _ (List.mem_singleton_self _)

/-- C7: the caller annotator activates only when the stored caller flag is
set; when active it resolves the frame exactly two levels up the stack and
attaches a `caller` field formatted `"<file>:<line>"`; when the flag is off
or frame resolution fails it returns the event (or context) unmodified. -/
theorem addCaller_spec (cfg : Config) (stack : List Frame) (evt : Event)
    (ctx : Context) :
    (cfg.WithCaller = false →
      addCallerInfo cfg stack evt = evt ∧
      addCallerToContext cfg stack ctx = ctx) ∧
    (∀ fr : Frame, cfg.WithCaller = true → runtimeCaller 2 stack = some fr →
      addCallerInfo cfg stack evt =
        evt.strField "caller" (fr.file ++ ":" ++ toString fr.line) ∧
      addCallerToContext cfg stack ctx =
        ctx.strField "caller" (fr.file ++ ":" ++ toString fr.line)) ∧
    (cfg.WithCaller = true → runtimeCaller 2 stack = none →
      addCallerInfo cfg stack evt = evt ∧
      addCallerToContext cfg stack ctx = ctx) := by
  refine ⟨?_, ?_, ?_⟩ <;> intros <;>
    simp_all [addCallerInfo, addCallerToContext]

/-- A three-deep call stack used to witness the caller annotator claim. -/
def frameStack : List Frame :=
  [⟨"app/wrapper.go", 10⟩, ⟨"app/level.go", 20⟩, ⟨"app/main.go", 42⟩]

def cfgCallerOn : Config :=
  { Level := "info", Pretty := false, WithCaller := true,
    TimeFormat := "", Output := none }

/-- Witness for C7: annotation on a resolvable stack, no-op with the flag
off, no-op on an unresolvable stack. -/
theorem addCaller_spec_witness :
    addCallerInfo cfgCallerOn frameStack ⟨.info, []⟩ =
      Event.strField ⟨.info, []⟩ "caller" "app/main.go:42" ∧
    addCallerInfo { cfgCallerOn with WithCaller := false } frameStack
      ⟨.info, []⟩ = ⟨.info, []⟩ ∧
    addCallerInfo cfgCallerOn [] ⟨.info, []⟩ = ⟨.info, []⟩ := by
  refine ⟨?_, ?_, ?_⟩
  · have h := (addCaller_spec cfgCallerOn frameStack ⟨.info, []⟩
      (ZLogger.new (.raw none))).2.1 ⟨"app/main.go", 42⟩ rfl (by decide)
    rw [h.1]
    rfl
  · exact ((addCaller_spec { cfgCallerOn with WithCaller := false }
      frameStack ⟨.info, []⟩ (ZLogger.new (.raw none))).1 rfl).1
  · exact ((addCaller_spec cfgCallerOn [] ⟨.info, []⟩
      (ZLogger.new (.raw none))).2.2 rfl rfl).1

/-- C8 counterexample: a non-nil error whose description is the empty
string is rendered as the empty string, so the output of `FormatError` on a
non-nil error is not always non-empty. -/
theorem FormatError_empty_description :
    FormatError (some { msg := "" }) = "" := rfl

/-- C8 (amended): `FormatError` returns the empty string for a nil error
and the error's default string representation — its description — for a
non-nil one; that representation is non-empty whenever the description is
non-empty. -/
theorem FormatError_spec (e? : Option GoError) :
    (e? = none → FormatError e? = "") ∧
    (∀ e : GoError, e? = some e →
      FormatError e? = e.msg ∧ (e.msg ≠ "" → FormatError e? ≠ "")) := by
  refine ⟨?_, ?_⟩
  · intro h
    subst h
    rfl
  · intro e h
    subst h
    exact ⟨rfl, fun hne => hne⟩

/-- Witness for C8. -/
theorem FormatError_spec_witness :
    FormatError none = "" ∧ FormatError (some { msg := "boom" }) = "boom" ∧
    FormatError (some { msg := "boom" }) ≠ "" := by
  refine ⟨(FormatError_spec none).1 rfl, ?_, ?_⟩
  · exact ((FormatError_spec (some { msg := "boom" })).2 _ rfl).1
  · exact ((FormatError_spec (some { msg := "boom" })).2 _ rfl).2 (by decide)

end Logger
